import Mathlib

/-!
Verification development for the storyboard-image generation front-end
(`App.tsx` and its service/type modules).  Text is modelled as `List Char`;
the JavaScript regex operations used by the application are embedded as
explicit functions on character lists, faithful to the backtracking
behaviour of the concrete patterns that appear in the source.  The
sequential generation controller (`handleGenerate`, `handleRegenerateAll`,
`handleRegenerate`) is modelled as a pure state-passing function over an
abstract adapter `gen` (attempt outcomes) and a polled cancellation signal
`stop` (the value of `isStoppingRef.current` at each boundary check,
indexed by the order in which the checks occur).
-/

/-- Text is a list of Unicode characters (JS strings, by code point). -/
abbrev Str := List Char

/-- The set matched by the JavaScript regex class `\s` (also the set
trimmed by `String.prototype.trim`). -/
def jsWs (c : Char) : Bool :=
  c = ' ' || c = '\t' || c = '\n' || c = '\r' || c.toNat = 11 || c.toNat = 12 ||
  c.toNat = 160 || c.toNat = 5760 || (8192 ≤ c.toNat && c.toNat ≤ 8202) ||
  c.toNat = 8232 || c.toNat = 8233 || c.toNat = 8239 || c.toNat = 8287 ||
  c.toNat = 12288 || c.toNat = 65279

/-- Characters matched by the JavaScript regex `.` (everything except the
four line terminators). -/
def jsDot (c : Char) : Bool :=
  !(c = '\n' || c = '\r' || c.toNat = 8232 || c.toNat = 8233)

/-- The function `String.prototype.trim`: strip `jsWs` characters from both ends. -/
def jsTrim (l : Str) : Str :=
  ((l.dropWhile jsWs).reverse.dropWhile jsWs).reverse

/-- Evaluation of `parseInt(digits, 10)` on a non-empty run of decimal digits. -/
def parseNatDigits (ds : Str) : Nat :=
  ds.foldl (fun a c => a * 10 + (c.toNat - 48)) 0

/-- Generic left-to-right regex scan: try the matcher at every start
position (every suffix), returning the first success. -/
def scanFirst {α : Type} (f : Str → Option α) : Str → Option α
  | [] => f []
  | c :: rest =>
    match f (c :: rest) with
    | some a => some a
    | none => scanFirst f rest

/-- The scene-header literal `Cảnh ` (from `/Cảnh \d+:/`). -/
def hdrLit : Str := "Cảnh ".data

/-- The prompt field label from `promptRegex`. -/
def promptLabel : Str := "Prompt (Câu lệnh tiếng Anh):".data

/-- The character field label from `characterRegex`. -/
def charLabel : Str := "Nhân vật:".data

/-- Terminators of the lazy prompt capture: the three lookahead
alternatives `\nNhân vật:`, `\nThời lượng ảnh:`, `\nKen Burns Effect:`. -/
def promptStopHere (t : Str) : Bool :=
  "\nNhân vật:".data.isPrefixOf t || "\nThời lượng ảnh:".data.isPrefixOf t ||
  "\nKen Burns Effect:".data.isPrefixOf t

/-- Match of `Cảnh (\d+):` anchored at the start of `l`: the literal
`Cảnh `, a maximal non-empty digit run, then `:`.  Returns the parsed
number. -/
def sceneNumMatchAt (l : Str) : Option Nat :=
  if hdrLit.isPrefixOf l then
    let rest := l.drop hdrLit.length
    let ds := rest.takeWhile Char.isDigit
    if ds.length ≠ 0 ∧ (rest.drop ds.length).head? = some ':' then
      some (parseNatDigits ds)
    else none
  else none

/-- Does a scene header `Cảnh \d+:` start at this position? -/
def headerAt (l : Str) : Bool :=
  (sceneNumMatchAt l).isSome

/-- First match of `sceneNumberRegex = /Cảnh (\d+):/` anywhere in the
block. -/
def sceneNumberOf (b : Str) : Option Nat :=
  scanFirst sceneNumMatchAt b

/-- Lazy block content of `sceneBlockRegex`: characters up to (not
including) the next scene header; second component is the remaining
text starting at that header (or `[]`). -/
def takeUntilHeader : Str → Str × Str
  | [] => ([], [])
  | c :: rest =>
    if headerAt (c :: rest) then ([], c :: rest)
    else
      let p := takeUntilHeader rest
      (c :: p.1, p.2)

/-- Fuelled splitting of the input into the matches of
`sceneBlockRegex = /(Cảnh \d+:[\s\S]*?)(?=Cảnh \d+:|$)/g`: each block
starts at a header occurrence and runs to just before the next header
occurrence, or to the end of the text. -/
def splitScenesF : Nat → Str → List Str
  | 0, _ => []
  | _, [] => []
  | fuel + 1, c :: rest =>
    if headerAt (c :: rest) then
      let p := takeUntilHeader rest
      (c :: p.1) :: splitScenesF fuel p.2
    else splitScenesF fuel rest

/-- Evaluation of `text.match(sceneBlockRegex) || []`. -/
def splitScenes (l : Str) : List Str :=
  splitScenesF l.length l

/-- Match of `promptRegex` anchored at a label occurrence: the suffix
after the label.  `scanFirst promptAfterLabel` realises the regex scan to
the first label occurrence (the tail of `promptRegex` always matches, so
the overall match sits at the first occurrence of the literal label). -/
def promptAfterLabel (l : Str) : Option Str :=
  if promptLabel.isPrefixOf l then some (l.drop promptLabel.length) else none

/-- Lazy capture `([\s\S]*?)` of `promptRegex`: shortest prefix ending at
the first position where one of the lookahead alternatives matches, or at
the end of the block (`$`). -/
def captureUpTo : Str → Str
  | [] => []
  | c :: rest =>
    if promptStopHere (c :: rest) then []
    else c :: captureUpTo rest

/-- The capture group of `promptRegex` applied to a block: the greedy
`\s*` consumes the maximal whitespace run after the label (it never backs
off, because the lazy group together with the final `$` alternative always
matches), then the lazy group runs to the first field-label terminator or
to end of block. -/
def promptCaptureOf (b : Str) : Option Str :=
  (scanFirst promptAfterLabel b).map (fun rest => captureUpTo (rest.dropWhile jsWs))

/-- One backtracking step of `characterRegex = /Nhân vật:\s*(.*?)(?:\n|$)/`
for a fixed length of the `\s*` run: the lazy group takes `.`-characters
up to the first position whose next character is `\n` or which is the end
of the text; it succeeds only if such a position exists before any other
line terminator. -/
def charCheckAt (rest : Str) (wsLen : Nat) : Option Str :=
  let u := rest.drop wsLen
  let seg := u.takeWhile jsDot
  let after := u.drop seg.length
  if after = [] ∨ after.head? = some '\n' then some seg else none

/-- Backtracking of the greedy `\s*` in `characterRegex`: try the maximal
whitespace run first, then shorter runs. -/
def charTryWs (rest : Str) : Nat → Option Str
  | 0 => charCheckAt rest 0
  | w + 1 =>
    match charCheckAt rest (w + 1) with
    | some seg => some seg
    | none => charTryWs rest w

/-- Match attempt of `characterRegex` anchored at a label occurrence. -/
def charAfterLabel (l : Str) : Option Str :=
  if charLabel.isPrefixOf l then
    let rest := l.drop charLabel.length
    charTryWs rest (rest.takeWhile jsWs).length
  else none

/-- The sentinel character name. -/
def khongLit : Str := "Không".data

/-- Evaluation of `characterMatch && characterMatch[1] ? characterMatch[1].trim() : 'Không'`. -/
def characterOf (b : Str) : Str :=
  match scanFirst charAfterLabel b with
  | some cap => if cap = [] then khongLit else jsTrim cap
  | none => khongLit

/-- A parsed scene (the `Scene` interface of `types.ts`). -/
structure Scene where
  prompt : Str
  characterName : Str
  fullText : Str
  sceneNumber : Nat
deriving DecidableEq

/-- Processing of one block inside the `for` loop of `parsePrompts`:
`if (sceneNumberMatch && promptMatch && promptMatch[1]) { scenes.push(…) }`
(`promptMatch[1]` is truthy exactly when the capture is non-empty). -/
def extractScene (b : Str) : Option Scene :=
  match sceneNumberOf b, promptCaptureOf b with
  | some n, some cap =>
    if cap = [] then none
    else some { prompt := jsTrim cap, characterName := characterOf b,
                fullText := jsTrim b, sceneNumber := n }
  | some _, none => none
  | none, _ => none

/-- The function `parsePrompts` of `App.tsx`. -/
def parsePrompts (text : Str) : List Scene :=
  (splitScenes text).filterMap extractScene

/-- A character reference (the `Character` interface of `types.ts`);
identifiers are abstracted to naturals. -/
structure Character where
  id : Nat
  name : Str
  imageBase64 : Str
  mimeType : Str
deriving DecidableEq

/-- A per-scene generation result (the `GeneratedImage` interface of
`types.ts`).  `src` is `[]` while pending, a `data:image/png;base64,…`
URL on success, `error` on failure and `cancelled` on cancellation. -/
structure GeneratedImage where
  id : Nat
  prompt : Str
  src : Str
  isLoading : Bool
  characterRefId : Option Nat
  isSelected : Bool
  sceneName : Str
  sceneScript : Str
deriving DecidableEq

/-- One adapter interaction of a run: the scene index, the number of
`generateImage` invocations made for it, the number of 5-second waits
taken between them, the continuity reference passed to those invocations,
and the final outcome (`some payload` if an attempt succeeded). -/
structure CallRecord where
  scene : Nat
  attempts : Nat
  waits : Nat
  refImage : Option Str
  outcome : Option Str
deriving DecidableEq

def dfltScene : Scene := { prompt := [], characterName := [], fullText := [], sceneNumber := 0 }

def dfltImg : GeneratedImage :=
  { id := 0, prompt := [], src := [], isLoading := false, characterRefId := none,
    isSelected := false, sceneName := [], sceneScript := [] }

def dfltRec : CallRecord :=
  { scene := 0, attempts := 0, waits := 0, refImage := none, outcome := none }

def errLit : Str := "error".data
def cancelledLit : Str := "cancelled".data
def dataUrlPre : Str := "data:image/png;base64,".data
def noPromptsMsg : Str := "Không tìm thấy prompt hợp lệ nào. Vui lòng kiểm tra định dạng đầu vào.".data

/-- The retry loop `for (attempt = 1; attempt <= MAX_ATTEMPTS && !success; attempt++)`:
given the outcome of each attempt, returns (number of invocations made,
number of 5-second waits taken, final outcome).  A wait happens only after
a failed attempt that is not the last one. -/
def attemptLoop (gen : Nat → Option Str) : Nat → Nat → Nat × Nat × Option Str
  | _, 0 => (0, 0, none)
  | attempt, rem + 1 =>
    match gen attempt with
    | some b => (1, 0, some b)
    | none =>
      if rem = 0 then (1, 0, none)
      else
        let t := attemptLoop gen (attempt + 1) rem
        (t.1 + 1, t.2.1 + 1, t.2.2)

/-- In-place update of one cell of a list (a JS array element assignment
or a keyed React state update). -/
def updAt {α : Type} : List α → Nat → (α → α) → List α
  | [], _, _ => []
  | a :: rest, 0, f => f a :: rest
  | a :: rest, n + 1, f => a :: updAt rest n f

/-- Evaluation of `currentImages.map((img, index) => index >= i ? { ...img, isLoading: false, src: 'cancelled' } : img)`. -/
def cancelFrom : List GeneratedImage → Nat → List GeneratedImage
  | [], _ => []
  | img :: rest, 0 => { img with isLoading := false, src := cancelledLit } :: cancelFrom rest 0
  | img :: rest, n + 1 => img :: cancelFrom rest n

/-- Evaluation of `currentImages.map((img, index) => index >= i ? { ...img, isLoading: false } : img)`
(the cancellation branch of `handleRegenerateAll`). -/
def clearLoadingFrom : List GeneratedImage → Nat → List GeneratedImage
  | [], _ => []
  | img :: rest, 0 => { img with isLoading := false } :: clearLoadingFrom rest 0
  | img :: rest, n + 1 => img :: clearLoadingFrom rest n

/-- JS lower-casing as used by the character match (`toLowerCase`);
modelled per character. -/
def jsToLower (l : Str) : Str := l.map Char.toLower

/-- Evaluation of `hay.includes(needle)`: substring containment. -/
def strIncludes (hay needle : Str) : Bool :=
  match hay with
  | [] => needle.isEmpty
  | _ :: rest => needle.isPrefixOf hay || strIncludes rest needle

/-- The branch `if (success && generatedBase64)` in the full-run loop tests the
payload for truthiness, so a success with an empty payload takes the
failure branch.  `srcMark` is the `src` the branch writes into the
result: the data URL when the branch is the success one, `error`
otherwise. -/
def srcMark (res : Option Str) : Str :=
  match res with
  | some b => if b = [] then errLit else dataUrlPre ++ b
  | none => errLit

/-- The value the same branch writes into `sceneImages[i]`: the data URL
on the success branch, `undefined` on the failure branch. -/
def chainOut (res : Option Str) : Option Str :=
  match res with
  | some b => if b = [] then none else some (dataUrlPre ++ b)
  | none => none

/-- The value the corresponding branch of `handleRegenerateAll` writes
into `newImageSrcs[i]`: the data URL on the success branch, and the
string `error` on the failure branch. -/
def regenChainOut (res : Option Str) : Option Str :=
  match res with
  | some b => if b = [] then some errLit else some (dataUrlPre ++ b)
  | none => some errLit

/-- The scene loop of `handleGenerate`.  `i` is the loop index, `rem` the
number of scenes still to process, `store` the current Result Store
content and `chain` the `sceneImages` array.  The cancellation flag is
read at check number `2*i` (before the scene's attempts) and `2*i+1`
(after they complete).  Returns the final store and the adapter-call log. -/
def genLoop (gen : Nat → Nat → Option Str) (stop : Nat → Bool) :
    Nat → Nat → List GeneratedImage → List (Option Str) →
    List GeneratedImage × List CallRecord
  | _, 0, store, _ => (store, [])
  | i, rem + 1, store, chain =>
    if stop (2 * i) then (cancelFrom store i, [])
    else
      let ref : Option Str := if i = 0 then none else chain.getD (i - 1) none
      let t := attemptLoop (gen i) 1 3
      let entry : CallRecord :=
        { scene := i, attempts := t.1, waits := t.2.1, refImage := ref, outcome := t.2.2 }
      if stop (2 * i + 1) then (cancelFrom store i, [entry])
      else
        let next := genLoop gen stop (i + 1) rem
          (updAt store i (fun img => { img with src := srcMark t.2.2, isLoading := false }))
          (updAt chain i (fun _ => chainOut t.2.2))
        (next.1, entry :: next.2)

/-- Construction of the fresh `pending` results published at the start
of a full run (`initialImages` in `handleGenerate`); `freshId` supplies
the `crypto.randomUUID()` values by position. -/
def mkInitialImages (characters : List Character) (freshId : Nat → Nat) :
    Nat → List Scene → List GeneratedImage
  | _, [] => []
  | idx, s :: rest =>
    { id := freshId idx
      prompt := s.prompt
      sceneName := hdrLit ++ (Nat.repr s.sceneNumber).data
      src := []
      isLoading := true
      characterRefId := (characters.find? (fun c =>
          strIncludes (jsToLower s.characterName) (jsToLower c.name))).map (fun c => c.id)
      isSelected := false
      sceneScript := s.fullText } :: mkInitialImages characters freshId (idx + 1) rest

/-- Observable outcome of a full generation run: the error banner, the
store content published at run start, the final store content (which
replaces whatever the store held before the run), and the adapter log. -/
structure RunResult where
  error : Option Str
  initial : List GeneratedImage
  images : List GeneratedImage
  log : List CallRecord

/-- The function `handleGenerate` of `App.tsx`.  Here `prior` is the Result Store content
when the run starts; the run clears it (`setGeneratedImages([])`) before
parsing, so it never survives into the result. -/
def handleGenerate (prior : List GeneratedImage) (promptsText : Str) (batchSize : Nat)
    (characters : List Character) (freshId : Nat → Nat)
    (gen : Nat → Nat → Option Str) (stop : Nat → Bool) : RunResult :=
  let _ := prior
  let scenes := (parsePrompts promptsText).take batchSize
  if scenes.length = 0 then
    { error := some noPromptsMsg, initial := [], images := [], log := [] }
  else
    let init := mkInitialImages characters freshId 0 scenes
    let out := genLoop gen stop 0 init.length init (List.replicate scenes.length none)
    { error := none, initial := init, images := out.1, log := out.2 }

/-- The scene loop of `handleRegenerateAll`: same shape as
`genLoop`, but the cancellation branch only clears the loading flag, and
a failed scene records the string `error` in the `newImageSrcs` array. -/
def regenAllLoop (gen : Nat → Nat → Option Str) (stop : Nat → Bool) :
    Nat → Nat → List GeneratedImage → List (Option Str) →
    List GeneratedImage × List CallRecord
  | _, 0, store, _ => (store, [])
  | i, rem + 1, store, chain =>
    if stop (2 * i) then (clearLoadingFrom store i, [])
    else
      let ref : Option Str := if i = 0 then none else chain.getD (i - 1) none
      let t := attemptLoop (gen i) 1 3
      let entry : CallRecord :=
        { scene := i, attempts := t.1, waits := t.2.1, refImage := ref, outcome := t.2.2 }
      if stop (2 * i + 1) then (clearLoadingFrom store i, [entry])
      else
        let next := regenAllLoop gen stop (i + 1) rem
          (updAt store i (fun img => { img with src := srcMark t.2.2, isLoading := false }))
          (updAt chain i (fun _ => regenChainOut t.2.2))
        (next.1, entry :: next.2)

/-- The function `handleRegenerateAll` of `App.tsx`: guards on a run in progress or an
empty store, marks every result loading, seeds `newImageSrcs` from the
entries whose `src` starts with `data:image`, then runs the loop over the
existing entries. -/
def handleRegenerateAll (isGenerating : Bool) (images : List GeneratedImage)
    (gen : Nat → Nat → Option Str) (stop : Nat → Bool) :
    List GeneratedImage × List CallRecord :=
  if isGenerating || images.length = 0 then (images, [])
  else
    regenAllLoop gen stop 0 images.length
      (images.map (fun img => { img with isLoading := true }))
      (images.map (fun img =>
        if "data:image".data.isPrefixOf img.src then some img.src else none))

/-- First match of the unanchored `/Cảnh (\d+)/` (no trailing colon
required) used on `sceneName` by `handleRegenerate`. -/
def looseNumMatchAt (l : Str) : Option Nat :=
  if hdrLit.isPrefixOf l then
    let ds := (l.drop hdrLit.length).takeWhile Char.isDigit
    if ds.length ≠ 0 then some (parseNatDigits ds) else none
  else none

def firstSceneNumLoose (l : Str) : Option Nat :=
  scanFirst looseNumMatchAt l

/-- The operation `GetSubstitution` of `String.prototype.replace`: expansion of `$`
patterns in the replacement text (`$$`, `$&`, backtick and quote forms;
with no capture groups everything else is literal). -/
def expandRepl (matched before after : Str) : Str → Str
  | [] => []
  | c :: rest =>
    if c = '$' then
      match rest with
      | [] => ['$']
      | d :: rest2 =>
        if d = '$' then '$' :: expandRepl matched before after rest2
        else if d = '&' then matched ++ expandRepl matched before after rest2
        else if d = Char.ofNat 96 then before ++ expandRepl matched before after rest2
        else if d = Char.ofNat 39 then after ++ expandRepl matched before after rest2
        else c :: expandRepl matched before after (d :: rest2)
    else c :: expandRepl matched before after rest

/-- Split at the first occurrence of the prompt label: portion before the
label, and the suffix starting at the label. -/
def findLabelSplit : Str → Option (Str × Str)
  | [] => none
  | c :: rest =>
    if promptLabel.isPrefixOf (c :: rest) then some ([], c :: rest)
    else (findLabelSplit rest).map (fun p => (c :: p.1, p.2))

/-- The call `sceneScript.replace(/Prompt \(Câu lệnh tiếng Anh\):.*/s, ...)` with
replacement `Prompt (Câu lệnh tiếng Anh): ${promptOverride}`:
the dot-all `.*` makes the match run from the first label occurrence to
the END of the string, so everything from the label onward is replaced. -/
def replacePromptField (script override : Str) : Str :=
  match findLabelSplit script with
  | none => script
  | some p => p.1 ++ expandRepl p.2 p.1 [] (promptLabel ++ ' ' :: override)

/-- The continuity-reference derivation block of `handleRegenerate`:
parse the scene number out of `sceneName` (`/Cảnh (\d+)/`), re-parse the
script text, locate the target scene by number, take the scene just
before it in parse order, and find the first stored result whose
`sceneName` starts with `Cảnh <prevNumber>` and whose `src` is non-empty
and not `error`. -/
def regenReference (images : List GeneratedImage) (promptsText : Str)
    (imageToRegen : GeneratedImage) : Option Str :=
  match firstSceneNumLoose imageToRegen.sceneName with
  | none => none
  | some m =>
    match (parsePrompts promptsText).findIdx? (fun s => s.sceneNumber == m) with
    | none => none
    | some j =>
      if j = 0 then none
      else
        match images.find? (fun img =>
            (hdrLit ++ (Nat.repr
                (((parsePrompts promptsText).getD (j - 1) dfltScene)).sceneNumber).data).isPrefixOf
              img.sceneName
            && img.src != ([] : Str) && img.src != errLit) with
        | some prevImg => some prevImg.src
        | none => none

/-- The function `handleRegenerate` of `App.tsx` (single-scene regeneration with an
optional prompt override).  Returns the new store and the adapter-call
record, if the target was found. -/
def handleRegenerate (images : List GeneratedImage) (promptsText : Str)
    (imageId : Nat) (promptOverride : Option Str) (gen : Nat → Option Str) :
    List GeneratedImage × Option CallRecord :=
  match images.find? (fun img => img.id == imageId) with
  | none => (images, none)
  | some imageToRegen =>
    let loading := images.map (fun img =>
      if img.id == imageId then { img with isLoading := true } else img)
    let referenceImage : Option Str := regenReference images promptsText imageToRegen
    let finalPrompt := promptOverride.getD imageToRegen.prompt
    let t := attemptLoop gen 1 3
    let entry : CallRecord :=
      { scene := 0, attempts := t.1, waits := t.2.1, refImage := referenceImage, outcome := t.2.2 }
    match t.2.2 with
    | some b =>
      (loading.map (fun img =>
        if img.id == imageId then
          { img with src := dataUrlPre ++ b, isLoading := false, prompt := finalPrompt,
                     sceneScript :=
                       match promptOverride with
                       | some ov => replacePromptField imageToRegen.sceneScript ov
                       | none => imageToRegen.sceneScript }
        else img), some entry)
    | none =>
      (loading.map (fun img =>
        if img.id == imageId then { img with src := errLit, isLoading := false } else img),
       some entry)

/-- A minimal valid scene block with the given number. -/
def mkBlockLit (n : Nat) : Str :=
  hdrLit ++ (Nat.repr n).data ++ ":Prompt (Câu lệnh tiếng Anh): a".data

/-- A script consisting of `k` minimal scene blocks numbered `1..k`. -/
def sampleText (k : Nat) : Str :=
  ((List.range k).map (fun j => mkBlockLit (j + 1))).flatten

/-- An adapter that always succeeds with payload `AAA`. -/
def genAAA : Nat → Nat → Option Str := fun _ _ => some "AAA".data

/-- An adapter whose first scene always fails and whose other scenes
succeed with payload `BBB`. -/
def genFail0 : Nat → Nat → Option Str := fun s _ => if s = 0 then none else some "BBB".data

/-- A single-scene adapter that always succeeds with payload `Q`. -/
def genOne : Nat → Option Str := fun _ => some "Q".data

/-- Cancellation never requested. -/
def stopNever : Nat → Bool := fun _ => false

/-- Cancellation requested between the first and second flag reads. -/
def stopAt1 : Nat → Bool := fun r => decide (1 ≤ r)

/-- Cancellation requested before the run starts polling. -/
def stopAlways : Nat → Bool := fun _ => true

/-- A stored result for scene 1 holding a successful payload. -/
def imgX : GeneratedImage :=
  { dfltImg with id := 1, sceneName := "Cảnh 1".data, src := "data:image/png;base64,X".data }

/-- A stored result for scene 2 holding a successful payload. -/
def imgY : GeneratedImage :=
  { dfltImg with id := 2, sceneName := "Cảnh 2".data, src := "data:image/png;base64,Y".data }

/-- A stored result for scene 1 that was cancelled. -/
def imgCancelled1 : GeneratedImage :=
  { dfltImg with id := 1, sceneName := "Cảnh 1".data, src := cancelledLit }

/-- A stored scene script whose prompt field is followed by two further
labelled fields. -/
def scriptSample : Str :=
  ("Cảnh 2: x\nPrompt (Câu lệnh tiếng Anh): old stuff\nNhân vật: Anna\nThời lượng ảnh: 5s").data

/-- A stored result for scene 2 carrying `scriptSample`. -/
def imgScript : GeneratedImage :=
  { dfltImg with id := 5, sceneName := "Cảnh 2".data, sceneScript := scriptSample,
                 prompt := "old stuff".data }

theorem updAt_length {α : Type} (l : List α) (i : Nat) (f : α → α) :
    (updAt l i f).length = l.length := by
  induction l generalizing i with
  | nil => rfl
  | cons a rest ih =>
    cases i with
    | zero => rfl
    | succ n => simp [updAt, ih]

theorem getD_updAt_ne {α : Type} (l : List α) (i j : Nat) (f : α → α) (d : α)
    (h : j ≠ i) : (updAt l i f).getD j d = l.getD j d := by
  induction l generalizing i j with
  | nil => rfl
  | cons a rest ih =>
    cases i with
    | zero =>
      cases j with
      | zero => exact absurd rfl h
      | succ m => simp [updAt, List.getD]
    | succ n =>
      cases j with
      | zero => simp [updAt, List.getD]
      | succ m =>
        simp only [updAt, List.getD_cons_succ]
        exact ih n m (fun hh => h (by omega))

theorem getD_updAt_self {α : Type} (l : List α) (i : Nat) (f : α → α) (d : α)
    (h : i < l.length) : (updAt l i f).getD i d = f (l.getD i d) := by
  induction l generalizing i with
  | nil => simp at h
  | cons a rest ih =>
    cases i with
    | zero => rfl
    | succ n =>
      simp only [updAt, List.getD_cons_succ]
      exact ih n (by simpa using h)

theorem cancelFrom_length (l : List GeneratedImage) (i : Nat) :
    (cancelFrom l i).length = l.length := by
  induction l generalizing i with
  | nil => rfl
  | cons a rest ih =>
    cases i with
    | zero => simp [cancelFrom, ih]
    | succ n => simp [cancelFrom, ih]

theorem getD_cancelFrom_lt (l : List GeneratedImage) (i j : Nat) (d : GeneratedImage)
    (h : j < i) : (cancelFrom l i).getD j d = l.getD j d := by
  induction l generalizing i j with
  | nil => rfl
  | cons a rest ih =>
    cases i with
    | zero => omega
    | succ n =>
      cases j with
      | zero => simp [cancelFrom, List.getD]
      | succ m =>
        simp only [cancelFrom, List.getD_cons_succ]
        exact ih n m (by omega)

theorem getD_cancelFrom_ge (l : List GeneratedImage) (i j : Nat) (d : GeneratedImage)
    (h1 : i ≤ j) (h2 : j < l.length) :
    (cancelFrom l i).getD j d = { l.getD j d with isLoading := false, src := cancelledLit } := by
  induction l generalizing i j with
  | nil => simp at h2
  | cons a rest ih =>
    cases i with
    | zero =>
      cases j with
      | zero => rfl
      | succ m =>
        simp only [cancelFrom, List.getD_cons_succ]
        exact ih 0 m (by omega) (by simpa using h2)
    | succ n =>
      cases j with
      | zero => omega
      | succ m =>
        simp only [cancelFrom, List.getD_cons_succ]
        exact ih n m (by omega) (by simpa using h2)

theorem clearLoadingFrom_length (l : List GeneratedImage) (i : Nat) :
    (clearLoadingFrom l i).length = l.length := by
  induction l generalizing i with
  | nil => rfl
  | cons a rest ih =>
    cases i with
    | zero => simp [clearLoadingFrom, ih]
    | succ n => simp [clearLoadingFrom, ih]

theorem getD_clearLoadingFrom_ge (l : List GeneratedImage) (i j : Nat) (d : GeneratedImage)
    (h1 : i ≤ j) (h2 : j < l.length) :
    (clearLoadingFrom l i).getD j d = { l.getD j d with isLoading := false } := by
  induction l generalizing i j with
  | nil => simp at h2
  | cons a rest ih =>
    cases i with
    | zero =>
      cases j with
      | zero => rfl
      | succ m =>
        simp only [clearLoadingFrom, List.getD_cons_succ]
        exact ih 0 m (by omega) (by simpa using h2)
    | succ n =>
      cases j with
      | zero => omega
      | succ m =>
        simp only [clearLoadingFrom, List.getD_cons_succ]
        exact ih n m (by omega) (by simpa using h2)

theorem getD_map_of_lt {α β : Type} (l : List α) (f : α → β) (j : Nat) (d : β) (d' : α)
    (h : j < l.length) : (l.map f).getD j d = f (l.getD j d') := by
  induction l generalizing j with
  | nil => simp at h
  | cons a rest ih =>
    cases j with
    | zero => rfl
    | succ m =>
      simp only [List.map_cons, List.getD_cons_succ]
      exact ih m (by simpa using h)

theorem attemptLoop_spec (g : Nat → Option Str) :
    (attemptLoop g 1 3).1 ≤ 3 ∧
    ((attemptLoop g 1 3).2.2 = none →
      (attemptLoop g 1 3).1 = 3 ∧ (attemptLoop g 1 3).2.1 = 2) ∧
    (∀ b, (attemptLoop g 1 3).2.2 = some b →
      (attemptLoop g 1 3).2.1 + 1 = (attemptLoop g 1 3).1 ∧
      g (attemptLoop g 1 3).1 = some b ∧
      ∀ a, 1 ≤ a → a < (attemptLoop g 1 3).1 → g a = none) := by
  rcases h1 : g 1 with _ | b1
  · rcases h2 : g 2 with _ | b2
    · rcases h3 : g 3 with _ | b3
      · refine ⟨?_, ?_, ?_⟩ <;> simp [attemptLoop, h1, h2, h3]
      · refine ⟨?_, ?_, ?_⟩ <;> simp_all [attemptLoop, h1, h2, h3]
        intro a ha1 ha3
        interval_cases a <;> assumption
    · refine ⟨?_, ?_, ?_⟩ <;> simp_all [attemptLoop, h1, h2]
      intro a ha1 ha2
      interval_cases a
      assumption
  · refine ⟨?_, ?_, ?_⟩ <;> simp_all [attemptLoop, h1]
    omega

theorem genLoop_succ_stop0 (gen : Nat → Nat → Option Str) (stop : Nat → Bool)
    (n i : Nat) (store : List GeneratedImage) (chain : List (Option Str))
    (h0 : stop (2 * i) = true) :
    genLoop gen stop i (n + 1) store chain = (cancelFrom store i, []) := by
  simp [genLoop, h0]

theorem genLoop_succ_stop1 (gen : Nat → Nat → Option Str) (stop : Nat → Bool)
    (n i : Nat) (store : List GeneratedImage) (chain : List (Option Str))
    (h0 : ¬ stop (2 * i) = true) (h1 : stop (2 * i + 1) = true) :
    genLoop gen stop i (n + 1) store chain =
      (cancelFrom store i,
       [{ scene := i, attempts := (attemptLoop (gen i) 1 3).1,
          waits := (attemptLoop (gen i) 1 3).2.1,
          refImage := if i = 0 then none else chain.getD (i - 1) none,
          outcome := (attemptLoop (gen i) 1 3).2.2 }]) := by
  simp [genLoop, h0, h1]

theorem genLoop_succ_go (gen : Nat → Nat → Option Str) (stop : Nat → Bool)
    (n i : Nat) (store : List GeneratedImage) (chain : List (Option Str))
    (h0 : ¬ stop (2 * i) = true) (h1 : ¬ stop (2 * i + 1) = true) :
    genLoop gen stop i (n + 1) store chain =
      ((genLoop gen stop (i + 1) n
          (updAt store i (fun img =>
            { img with src := srcMark (attemptLoop (gen i) 1 3).2.2, isLoading := false }))
          (updAt chain i (fun _ => chainOut (attemptLoop (gen i) 1 3).2.2))).1,
       { scene := i, attempts := (attemptLoop (gen i) 1 3).1,
         waits := (attemptLoop (gen i) 1 3).2.1,
         refImage := if i = 0 then none else chain.getD (i - 1) none,
         outcome := (attemptLoop (gen i) 1 3).2.2 } ::
       (genLoop gen stop (i + 1) n
          (updAt store i (fun img =>
            { img with src := srcMark (attemptLoop (gen i) 1 3).2.2, isLoading := false }))
          (updAt chain i (fun _ => chainOut (attemptLoop (gen i) 1 3).2.2))).2) := by
  simp [genLoop, h0, h1]

theorem genLoop_fst_length (gen : Nat → Nat → Option Str) (stop : Nat → Bool) :
    ∀ rem i store chain, (genLoop gen stop i rem store chain).1.length = store.length := by
  intro rem
  induction rem with
  | zero => intro i store chain; rfl
  | succ n ih =>
    intro i store chain
    by_cases h0 : stop (2 * i)
    · rw [genLoop_succ_stop0 gen stop n i store chain h0]
      exact cancelFrom_length store i
    · by_cases h1 : stop (2 * i + 1)
      · rw [genLoop_succ_stop1 gen stop n i store chain h0 h1]
        exact cancelFrom_length store i
      · rw [genLoop_succ_go gen stop n i store chain h0 h1]
        rw [ih, updAt_length]

theorem genLoop_frame (gen : Nat → Nat → Option Str) (stop : Nat → Bool) :
    ∀ rem i store chain j, j < i →
      (genLoop gen stop i rem store chain).1.getD j dfltImg = store.getD j dfltImg := by
  intro rem
  induction rem with
  | zero => intro i store chain j _; rfl
  | succ n ih =>
    intro i store chain j hj
    by_cases h0 : stop (2 * i)
    · rw [genLoop_succ_stop0 gen stop n i store chain h0]
      exact getD_cancelFrom_lt _ _ _ _ hj
    · by_cases h1 : stop (2 * i + 1)
      · rw [genLoop_succ_stop1 gen stop n i store chain h0 h1]
        exact getD_cancelFrom_lt _ _ _ _ hj
      · rw [genLoop_succ_go gen stop n i store chain h0 h1]
        rw [ih (i + 1) _ _ j (by omega), getD_updAt_ne _ _ _ _ _ (by omega)]

theorem genLoop_log_struct (gen : Nat → Nat → Option Str) (stop : Nat → Bool) :
    ∀ rem i store chain, i + rem ≤ chain.length →
    (∀ k, k < (genLoop gen stop i rem store chain).2.length →
        ((genLoop gen stop i rem store chain).2.getD k dfltRec).scene = i + k) ∧
    (0 < (genLoop gen stop i rem store chain).2.length →
        ((genLoop gen stop i rem store chain).2.getD 0 dfltRec).refImage =
          if i = 0 then none else chain.getD (i - 1) none) ∧
    (∀ k, k + 1 < (genLoop gen stop i rem store chain).2.length →
        ((genLoop gen stop i rem store chain).2.getD (k + 1) dfltRec).refImage =
          chainOut (((genLoop gen stop i rem store chain).2.getD k dfltRec).outcome)) := by
  intro rem
  induction rem with
  | zero =>
    intro i store chain _
    refine ⟨?_, ?_, ?_⟩ <;> intros <;> simp_all [genLoop]
  | succ n ih =>
    intro i store chain hch
    by_cases h0 : stop (2 * i)
    · rw [genLoop_succ_stop0 gen stop n i store chain h0]
      refine ⟨?_, ?_, ?_⟩ <;> intros <;> simp_all
    · by_cases h1 : stop (2 * i + 1)
      · rw [genLoop_succ_stop1 gen stop n i store chain h0 h1]
        refine ⟨?_, ?_, ?_⟩
        · intro k hk
          simp only [List.length_cons, List.length_nil] at hk
          interval_cases k
          simp
        · intro _
          simp
        · intro k hk
          simp at hk
      · rw [genLoop_succ_go gen stop n i store chain h0 h1]
        have hch' : (i + 1) + n ≤
            (updAt chain i (fun _ => chainOut (attemptLoop (gen i) 1 3).2.2)).length := by
          rw [updAt_length]; omega
        have hih := ih (i + 1)
          (updAt store i (fun img =>
            { img with src := srcMark (attemptLoop (gen i) 1 3).2.2, isLoading := false }))
          (updAt chain i (fun _ => chainOut (attemptLoop (gen i) 1 3).2.2)) hch'
        refine ⟨?_, ?_, ?_⟩
        · intro k hk
          cases k with
          | zero => simp
          | succ m =>
            simp only [List.getD_cons_succ]
            have := hih.1 m (by simpa using Nat.lt_of_succ_lt_succ (by simpa using hk))
            rw [this]; omega
        · intro _
          simp
        · intro k hk
          cases k with
          | zero =>
            simp only [List.getD_cons_succ, List.getD_cons_zero]
            have hlen : 0 < (genLoop gen stop (i + 1) n
                (updAt store i (fun img =>
                  { img with src := srcMark (attemptLoop (gen i) 1 3).2.2, isLoading := false }))
                (updAt chain i (fun _ => chainOut (attemptLoop (gen i) 1 3).2.2))).2.length := by
              simpa using Nat.lt_of_succ_lt_succ (by simpa using hk)
            rw [hih.2.1 hlen]
            have hi : i < chain.length := by omega
            rw [if_neg (by omega : ¬ i + 1 = 0)]
            have he1 : i + 1 - 1 = i := by omega
            rw [he1,
              getD_updAt_self chain i (fun _ => chainOut (attemptLoop (gen i) 1 3).2.2) none hi]
          | succ m =>
            simp only [List.getD_cons_succ]
            exact hih.2.2 m (by simpa using Nat.lt_of_succ_lt_succ (by simpa using hk))

theorem genLoop_log_shape (gen : Nat → Nat → Option Str) (stop : Nat → Bool) :
    ∀ rem i store chain e, e ∈ (genLoop gen stop i rem store chain).2 →
      e.attempts = (attemptLoop (gen e.scene) 1 3).1 ∧
      e.waits = (attemptLoop (gen e.scene) 1 3).2.1 ∧
      e.outcome = (attemptLoop (gen e.scene) 1 3).2.2 := by
  intro rem
  induction rem with
  | zero => intro i store chain e he; simp [genLoop] at he
  | succ n ih =>
    intro i store chain e he
    by_cases h0 : stop (2 * i)
    · rw [genLoop_succ_stop0 gen stop n i store chain h0] at he
      simp at he
    · by_cases h1 : stop (2 * i + 1)
      · rw [genLoop_succ_stop1 gen stop n i store chain h0 h1] at he
        simp at he
        subst he
        exact ⟨rfl, rfl, rfl⟩
      · rw [genLoop_succ_go gen stop n i store chain h0 h1] at he
        rcases List.mem_cons.mp he with he1 | he2
        · subst he1
          exact ⟨rfl, rfl, rfl⟩
        · exact ih (i + 1) _ _ e he2

theorem genLoop_cancel_mark (gen : Nat → Nat → Option Str) (stop : Nat → Bool) (k : Nat)
    (hset : stop k = true) (hleast : ∀ r, r < k → stop r = false) :
    ∀ rem i store chain, 2 * i ≤ k → k < 2 * (i + rem) →
    ∀ j, k / 2 ≤ j → j < store.length →
      ((genLoop gen stop i rem store chain).1.getD j dfltImg).src = cancelledLit ∧
      ((genLoop gen stop i rem store chain).1.getD j dfltImg).isLoading = false := by
  intro rem
  induction rem with
  | zero => intro i store chain h2i hk2; omega
  | succ n ih =>
    intro i store chain h2i hk2 j hj1 hj2
    by_cases h0 : stop (2 * i)
    · have hki : k = 2 * i := by
        by_contra hne
        exact absurd (hleast (2 * i) (by omega)) (by simp [h0])
      rw [genLoop_succ_stop0 gen stop n i store chain h0]
      have hij : i ≤ j := by omega
      rw [getD_cancelFrom_ge store i j dfltImg hij hj2]
      exact ⟨rfl, rfl⟩
    · have hik : 2 * i < k := by
        rcases Nat.lt_or_ge (2 * i) k with h | h
        · exact h
        · have : k = 2 * i := by omega
          rw [this] at hset
          simp [hset] at h0
      by_cases h1 : stop (2 * i + 1)
      · have hki : k = 2 * i + 1 := by
          by_contra hne
          exact absurd (hleast (2 * i + 1) (by omega)) (by simp [h1])
        rw [genLoop_succ_stop1 gen stop n i store chain h0 h1]
        have hij : i ≤ j := by omega
        rw [getD_cancelFrom_ge store i j dfltImg hij hj2]
        exact ⟨rfl, rfl⟩
      · have hik1 : 2 * i + 1 < k := by
          rcases Nat.lt_or_ge (2 * i + 1) k with h | h
          · exact h
          · have : k = 2 * i + 1 := by omega
            rw [this] at hset
            simp [hset] at h1
        rw [genLoop_succ_go gen stop n i store chain h0 h1]
        exact ih (i + 1) _ _ (by omega) (by omega) j hj1 (by rw [updAt_length]; exact hj2)

theorem genLoop_cancel_agree (gen : Nat → Nat → Option Str) (stop : Nat → Bool) (k : Nat)
    (hset : stop k = true) (hleast : ∀ r, r < k → stop r = false) :
    ∀ rem i store chain, 2 * i ≤ k →
    ∀ j, j < k / 2 →
      (genLoop gen stop i rem store chain).1.getD j dfltImg =
      (genLoop gen stopNever i rem store chain).1.getD j dfltImg := by
  intro rem
  induction rem with
  | zero => intro i store chain _ j _; rfl
  | succ n ih =>
    intro i store chain h2i j hj
    by_cases h0 : stop (2 * i)
    · have hki : k = 2 * i := by
        by_contra hne
        exact absurd (hleast (2 * i) (by omega)) (by simp [h0])
      have hji : j < i := by omega
      rw [genLoop_succ_stop0 gen stop n i store chain h0,
          genLoop_succ_go gen stopNever n i store chain (by simp [stopNever]) (by simp [stopNever])]
      rw [getD_cancelFrom_lt store i j dfltImg hji,
          genLoop_frame gen stopNever n (i + 1) _ _ j (by omega),
          getD_updAt_ne _ _ _ _ _ (by omega)]
    · have hik : 2 * i < k := by
        rcases Nat.lt_or_ge (2 * i) k with h | h
        · exact h
        · have : k = 2 * i := by omega
          rw [this] at hset
          simp [hset] at h0
      by_cases h1 : stop (2 * i + 1)
      · have hki : k = 2 * i + 1 := by
          by_contra hne
          exact absurd (hleast (2 * i + 1) (by omega)) (by simp [h1])
        have hji : j < i := by omega
        rw [genLoop_succ_stop1 gen stop n i store chain h0 h1,
            genLoop_succ_go gen stopNever n i store chain (by simp [stopNever]) (by simp [stopNever])]
        rw [getD_cancelFrom_lt store i j dfltImg hji,
            genLoop_frame gen stopNever n (i + 1) _ _ j (by omega),
            getD_updAt_ne _ _ _ _ _ (by omega)]
      · have hik1 : 2 * i + 1 < k := by
          rcases Nat.lt_or_ge (2 * i + 1) k with h | h
          · exact h
          · have : k = 2 * i + 1 := by omega
            rw [this] at hset
            simp [hset] at h1
        rw [genLoop_succ_go gen stop n i store chain h0 h1,
            genLoop_succ_go gen stopNever n i store chain (by simp [stopNever]) (by simp [stopNever])]
        exact ih (i + 1) _ _ (by omega) j hj

theorem genLoop_log_stop (gen : Nat → Nat → Option Str) (stop : Nat → Bool) (k : Nat)
    (hset : stop k = true) (hleast : ∀ r, r < k → stop r = false) :
    ∀ rem i store chain, 2 * i ≤ k →
    ∀ e, e ∈ (genLoop gen stop i rem store chain).2 → 2 * e.scene < k := by
  intro rem
  induction rem with
  | zero => intro i store chain _ e he; simp [genLoop] at he
  | succ n ih =>
    intro i store chain h2i e he
    by_cases h0 : stop (2 * i)
    · rw [genLoop_succ_stop0 gen stop n i store chain h0] at he
      simp at he
    · have hik : 2 * i < k := by
        rcases Nat.lt_or_ge (2 * i) k with h | h
        · exact h
        · have : k = 2 * i := by omega
          rw [this] at hset
          simp [hset] at h0
      by_cases h1 : stop (2 * i + 1)
      · rw [genLoop_succ_stop1 gen stop n i store chain h0 h1] at he
        simp at he
        subst he
        simpa using hik
      · have hik1 : 2 * i + 1 < k := by
          rcases Nat.lt_or_ge (2 * i + 1) k with h | h
          · exact h
          · have : k = 2 * i + 1 := by omega
            rw [this] at hset
            simp [hset] at h1
        rw [genLoop_succ_go gen stop n i store chain h0 h1] at he
        rcases List.mem_cons.mp he with he1 | he2
        · subst he1
          simpa using hik
        · exact ih (i + 1) _ _ (by omega) e he2

theorem genLoop_free_mark (gen : Nat → Nat → Option Str) :
    ∀ rem i store chain, store.length = i + rem →
      (genLoop gen stopNever i rem store chain).2.length = rem ∧
      ∀ j, j < rem →
        ((genLoop gen stopNever i rem store chain).1.getD (i + j) dfltImg).src =
          srcMark (((genLoop gen stopNever i rem store chain).2.getD j dfltRec).outcome) ∧
        ((genLoop gen stopNever i rem store chain).1.getD (i + j) dfltImg).isLoading = false := by
  intro rem
  induction rem with
  | zero =>
    intro i store chain _
    exact ⟨rfl, by intro j hj; omega⟩
  | succ n ih =>
    intro i store chain hlen
    rw [genLoop_succ_go gen stopNever n i store chain (by simp [stopNever]) (by simp [stopNever])]
    have hih := ih (i + 1)
      (updAt store i (fun img =>
        { img with src := srcMark (attemptLoop (gen i) 1 3).2.2, isLoading := false }))
      (updAt chain i (fun _ => chainOut (attemptLoop (gen i) 1 3).2.2))
      (by rw [updAt_length]; omega)
    refine ⟨by simpa using hih.1, ?_⟩
    intro j hj
    cases j with
    | zero =>
      simp only [Nat.add_zero, List.getD_cons_zero]
      rw [genLoop_frame gen stopNever n (i + 1) _ _ i (by omega)]
      have hi : i < store.length := by omega
      rw [getD_updAt_self store i _ dfltImg hi]
      exact ⟨rfl, rfl⟩
    | succ m =>
      simp only [List.getD_cons_succ]
      have := hih.2 m (by omega)
      have harith : i + 1 + m = i + (m + 1) := by omega
      rw [harith] at this
      exact this

theorem regenAllLoop_succ_stop0 (gen : Nat → Nat → Option Str) (stop : Nat → Bool)
    (n i : Nat) (store : List GeneratedImage) (chain : List (Option Str))
    (h0 : stop (2 * i) = true) :
    regenAllLoop gen stop i (n + 1) store chain = (clearLoadingFrom store i, []) := by
  simp [regenAllLoop, h0]

theorem regenAllLoop_succ_stop1 (gen : Nat → Nat → Option Str) (stop : Nat → Bool)
    (n i : Nat) (store : List GeneratedImage) (chain : List (Option Str))
    (h0 : ¬ stop (2 * i) = true) (h1 : stop (2 * i + 1) = true) :
    regenAllLoop gen stop i (n + 1) store chain =
      (clearLoadingFrom store i,
       [{ scene := i, attempts := (attemptLoop (gen i) 1 3).1,
          waits := (attemptLoop (gen i) 1 3).2.1,
          refImage := if i = 0 then none else chain.getD (i - 1) none,
          outcome := (attemptLoop (gen i) 1 3).2.2 }]) := by
  simp [regenAllLoop, h0, h1]

theorem regenAllLoop_succ_go (gen : Nat → Nat → Option Str) (stop : Nat → Bool)
    (n i : Nat) (store : List GeneratedImage) (chain : List (Option Str))
    (h0 : ¬ stop (2 * i) = true) (h1 : ¬ stop (2 * i + 1) = true) :
    regenAllLoop gen stop i (n + 1) store chain =
      ((regenAllLoop gen stop (i + 1) n
          (updAt store i (fun img =>
            { img with src := srcMark (attemptLoop (gen i) 1 3).2.2, isLoading := false }))
          (updAt chain i (fun _ => regenChainOut (attemptLoop (gen i) 1 3).2.2))).1,
       { scene := i, attempts := (attemptLoop (gen i) 1 3).1,
         waits := (attemptLoop (gen i) 1 3).2.1,
         refImage := if i = 0 then none else chain.getD (i - 1) none,
         outcome := (attemptLoop (gen i) 1 3).2.2 } ::
       (regenAllLoop gen stop (i + 1) n
          (updAt store i (fun img =>
            { img with src := srcMark (attemptLoop (gen i) 1 3).2.2, isLoading := false }))
          (updAt chain i (fun _ => regenChainOut (attemptLoop (gen i) 1 3).2.2))).2) := by
  simp [regenAllLoop, h0, h1]

theorem regenAllLoop_cancel_keep (gen : Nat → Nat → Option Str) (stop : Nat → Bool) (k : Nat)
    (hset : stop k = true) (hleast : ∀ r, r < k → stop r = false) :
    ∀ rem i store chain, 2 * i ≤ k → k < 2 * (i + rem) →
    ∀ j, k / 2 ≤ j → j < store.length →
      (regenAllLoop gen stop i rem store chain).1.getD j dfltImg =
        { store.getD j dfltImg with isLoading := false } := by
  intro rem
  induction rem with
  | zero => intro i store chain h2i hk2; omega
  | succ n ih =>
    intro i store chain h2i hk2 j hj1 hj2
    by_cases h0 : stop (2 * i)
    · rw [regenAllLoop_succ_stop0 gen stop n i store chain h0]
      have hki : k = 2 * i := by
        by_contra hne
        exact absurd (hleast (2 * i) (by omega)) (by simp [h0])
      exact getD_clearLoadingFrom_ge store i j dfltImg (by omega) hj2
    · have hik : 2 * i < k := by
        rcases Nat.lt_or_ge (2 * i) k with h | h
        · exact h
        · have : k = 2 * i := by omega
          rw [this] at hset
          simp [hset] at h0
      by_cases h1 : stop (2 * i + 1)
      · rw [regenAllLoop_succ_stop1 gen stop n i store chain h0 h1]
        have hki : k = 2 * i + 1 := by
          by_contra hne
          exact absurd (hleast (2 * i + 1) (by omega)) (by simp [h1])
        exact getD_clearLoadingFrom_ge store i j dfltImg (by omega) hj2
      · have hik1 : 2 * i + 1 < k := by
          rcases Nat.lt_or_ge (2 * i + 1) k with h | h
          · exact h
          · have : k = 2 * i + 1 := by omega
            rw [this] at hset
            simp [hset] at h1
        rw [regenAllLoop_succ_go gen stop n i store chain h0 h1]
        have hji : k / 2 ≤ j := hj1
        have hgoal := ih (i + 1)
          (updAt store i (fun img =>
            { img with src := srcMark (attemptLoop (gen i) 1 3).2.2, isLoading := false }))
          (updAt chain i (fun _ => regenChainOut (attemptLoop (gen i) 1 3).2.2))
          (by omega) (by omega) j hj1 (by rw [updAt_length]; exact hj2)
        rw [hgoal, getD_updAt_ne _ _ _ _ _ (by omega)]

theorem regenAllLoop_log_shape (gen : Nat → Nat → Option Str) (stop : Nat → Bool) :
    ∀ rem i store chain e, e ∈ (regenAllLoop gen stop i rem store chain).2 →
      e.attempts = (attemptLoop (gen e.scene) 1 3).1 ∧
      e.waits = (attemptLoop (gen e.scene) 1 3).2.1 ∧
      e.outcome = (attemptLoop (gen e.scene) 1 3).2.2 := by
  intro rem
  induction rem with
  | zero => intro i store chain e he; simp [regenAllLoop] at he
  | succ n ih =>
    intro i store chain e he
    by_cases h0 : stop (2 * i)
    · rw [regenAllLoop_succ_stop0 gen stop n i store chain h0] at he
      simp at he
    · by_cases h1 : stop (2 * i + 1)
      · rw [regenAllLoop_succ_stop1 gen stop n i store chain h0 h1] at he
        simp at he
        subst he
        exact ⟨rfl, rfl, rfl⟩
      · rw [regenAllLoop_succ_go gen stop n i store chain h0 h1] at he
        rcases List.mem_cons.mp he with he1 | he2
        · subst he1
          exact ⟨rfl, rfl, rfl⟩
        · exact ih (i + 1) _ _ e he2

theorem dropWhile_head_false {p : Char → Bool} :
    ∀ (l : Str) (c : Char) (t : Str), l.dropWhile p = c :: t → p c = false := by
  intro l
  induction l with
  | nil => intro c t h; simp at h
  | cons a rest ih =>
    intro c t h
    by_cases ha : p a
    · rw [List.dropWhile_cons_of_pos ha] at h
      exact ih c t h
    · rw [List.dropWhile_cons_of_neg ha] at h
      cases h
      simpa using ha

theorem dropWhile_ne_nil {p : Char → Bool} :
    ∀ (l : Str) (c : Char), c ∈ l → p c = false → l.dropWhile p ≠ [] := by
  intro l
  induction l with
  | nil => intro c hc; simp at hc
  | cons a rest ih =>
    intro c hc hpc
    by_cases ha : p a
    · rw [List.dropWhile_cons_of_pos ha]
      rcases List.mem_cons.mp hc with h | h
      · subst h
        rw [ha] at hpc
        cases hpc
      · exact ih c h hpc
    · rw [List.dropWhile_cons_of_neg ha]
      simp

theorem jsTrim_cons_ne_nil (c : Char) (t : Str) (hc : jsWs c = false) :
    jsTrim (c :: t) ≠ [] := by
  unfold jsTrim
  rw [List.dropWhile_cons_of_neg (by simp [hc])]
  intro hcontra
  have h1 : (c :: t).reverse.dropWhile jsWs = [] := by
    have := congrArg List.reverse hcontra
    simpa using this
  have h2 : c ∈ (c :: t).reverse := by simp
  exact dropWhile_ne_nil (c :: t).reverse c h2 hc h1

theorem promptCapture_head (b cap : Str) (h : promptCaptureOf b = some cap) :
    cap = [] ∨ ∃ c t, cap = c :: t ∧ jsWs c = false := by
  unfold promptCaptureOf at h
  rcases hscan : scanFirst promptAfterLabel b with _ | rest
  · rw [hscan] at h
    simp at h
  · rw [hscan] at h
    rw [Option.map_some'] at h
    rw [Option.some_inj] at h
    rcases hdw : rest.dropWhile jsWs with _ | ⟨c, t⟩
    · left
      rw [hdw] at h
      simpa [captureUpTo] using h.symm
    · rw [hdw] at h
      by_cases hstop : promptStopHere (c :: t)
      · left
        rw [show captureUpTo (c :: t) = [] by simp [captureUpTo, hstop]] at h
        exact h.symm
      · right
        refine ⟨c, captureUpTo t, ?_, dropWhile_head_false rest c t hdw⟩
        rw [show captureUpTo (c :: t) = c :: captureUpTo t by simp [captureUpTo, hstop]] at h
        exact h.symm

theorem extractScene_prompt_ne_nil (b : Str) (s : Scene) (h : extractScene b = some s) :
    s.prompt ≠ [] := by
  unfold extractScene at h
  rcases hn : sceneNumberOf b with _ | n <;> rw [hn] at h
  · cases h
  · rcases hc : promptCaptureOf b with _ | cap <;> rw [hc] at h
    · cases h
    · by_cases hcap : cap = []
      · simp [hcap] at h
      · simp only [hcap, if_false] at h
        cases h
        rcases promptCapture_head b cap hc with h1 | ⟨c, t, h2, h3⟩
        · exact absurd h1 hcap
        · subst h2
          exact jsTrim_cons_ne_nil c t h3

theorem expandRepl_no_dollar (matched before after : Str) :
    ∀ l, (∀ c ∈ l, c ≠ '$') → expandRepl matched before after l = l := by
  intro l
  induction l with
  | nil => intro _; rfl
  | cons c rest ih =>
    intro h
    have hc : c ≠ '$' := h c (by simp)
    unfold expandRepl
    rw [if_neg hc]
    rw [ih (fun d hd => h d (by simp [hd]))]

theorem mkInitialImages_length (characters : List Character) (freshId : Nat → Nat) :
    ∀ scenes idx, (mkInitialImages characters freshId idx scenes).length = scenes.length := by
  intro scenes
  induction scenes with
  | nil => intro idx; rfl
  | cons s rest ih => intro idx; simp [mkInitialImages, ih]

theorem mkInitialImages_getD (characters : List Character) (freshId : Nat → Nat) :
    ∀ scenes idx j, j < scenes.length →
      (mkInitialImages characters freshId idx scenes).getD j dfltImg =
        { id := freshId (idx + j)
          prompt := (scenes.getD j dfltScene).prompt
          sceneName := hdrLit ++ (Nat.repr (scenes.getD j dfltScene).sceneNumber).data
          src := []
          isLoading := true
          characterRefId := (characters.find? (fun c =>
              strIncludes (jsToLower (scenes.getD j dfltScene).characterName)
                (jsToLower c.name))).map (fun c => c.id)
          isSelected := false
          sceneScript := (scenes.getD j dfltScene).fullText } := by
  intro scenes
  induction scenes with
  | nil => intro idx j hj; simp at hj
  | cons s rest ih =>
    intro idx j hj
    cases j with
    | zero => simp [mkInitialImages]
    | succ m =>
      simp only [mkInitialImages, List.getD_cons_succ]
      rw [ih (idx + 1) m (by simpa using hj)]
      have : idx + 1 + m = idx + (m + 1) := by omega
      rw [this]

theorem getD_mem {α : Type} : ∀ (l : List α) (j : Nat) (d : α), j < l.length → l.getD j d ∈ l := by
  intro l
  induction l with
  | nil => intro j d h; simp at h
  | cons a rest ih =>
    intro j d h
    cases j with
    | zero => simp
    | succ m =>
      simp only [List.getD_cons_succ]
      exact List.mem_cons.mpr (Or.inr (ih m d (by simpa using h)))

theorem handleGenerate_eq_pos (prior : List GeneratedImage) (pt : Str) (bs : Nat)
    (chars : List Character) (fid : Nat → Nat) (gen : Nat → Nat → Option Str) (stop : Nat → Bool)
    (hsc : ¬ ((parsePrompts pt).take bs).length = 0) :
    handleGenerate prior pt bs chars fid gen stop =
      { error := none
        initial := mkInitialImages chars fid 0 ((parsePrompts pt).take bs)
        images := (genLoop gen stop 0 (mkInitialImages chars fid 0 ((parsePrompts pt).take bs)).length
          (mkInitialImages chars fid 0 ((parsePrompts pt).take bs))
          (List.replicate ((parsePrompts pt).take bs).length none)).1
        log := (genLoop gen stop 0 (mkInitialImages chars fid 0 ((parsePrompts pt).take bs)).length
          (mkInitialImages chars fid 0 ((parsePrompts pt).take bs))
          (List.replicate ((parsePrompts pt).take bs).length none)).2 } := by
  simp [handleGenerate, hsc]
  exact ⟨fun h => hsc (by simp [h]), fun h => hsc (by simp [h])⟩

theorem handleGenerate_eq_zero (prior : List GeneratedImage) (pt : Str) (bs : Nat)
    (chars : List Character) (fid : Nat → Nat) (gen : Nat → Nat → Option Str) (stop : Nat → Bool)
    (hsc : ((parsePrompts pt).take bs).length = 0) :
    handleGenerate prior pt bs chars fid gen stop =
      { error := some noPromptsMsg, initial := [], images := [], log := [] } := by
  simp [handleGenerate, hsc]

/-- C1: in a full generation run (`handleGenerate`), the adapter call for
scene `i` receives as continuity reference exactly the payload data URL
produced by scene `i-1`'s successful call, and receives no continuity
reference when `i = 0` or when scene `i-1` failed (the chain cell is left
empty on failure).  Stated over the run's adapter-call log: the `j`-th
record is for scene `j`, the first call carries no reference, and the
`j+1`-st call's reference is exactly the data URL of the `j`-th call's
successful outcome and nothing otherwise.  The hypothesis `hpay` is the
adapter contract that a successful call returns a (non-empty) payload. -/
theorem c1_chain_continuity (prior : List GeneratedImage) (pt : Str) (bs : Nat)
    (chars : List Character) (fid : Nat → Nat) (gen : Nat → Nat → Option Str) (stop : Nat → Bool)
    (hpay : ∀ s a b, gen s a = some b → b ≠ []) :
    (∀ j, j < (handleGenerate prior pt bs chars fid gen stop).log.length →
      ((handleGenerate prior pt bs chars fid gen stop).log.getD j dfltRec).scene = j) ∧
    (0 < (handleGenerate prior pt bs chars fid gen stop).log.length →
      ((handleGenerate prior pt bs chars fid gen stop).log.getD 0 dfltRec).refImage = none) ∧
    (∀ j, j + 1 < (handleGenerate prior pt bs chars fid gen stop).log.length →
      ((handleGenerate prior pt bs chars fid gen stop).log.getD (j + 1) dfltRec).refImage =
        match ((handleGenerate prior pt bs chars fid gen stop).log.getD j dfltRec).outcome with
        | some b => some (dataUrlPre ++ b)
        | none => none) := by
  by_cases hsc : ((parsePrompts pt).take bs).length = 0
  · rw [handleGenerate_eq_zero prior pt bs chars fid gen stop hsc]
    refine ⟨?_, ?_, ?_⟩ <;> intros <;> simp_all
  · rw [handleGenerate_eq_pos prior pt bs chars fid gen stop hsc]
    have hch : 0 + (mkInitialImages chars fid 0 ((parsePrompts pt).take bs)).length ≤
        (List.replicate ((parsePrompts pt).take bs).length (none : Option Str)).length := by
      rw [mkInitialImages_length, List.length_replicate]
      omega
    have hstruct := genLoop_log_struct gen stop
      (mkInitialImages chars fid 0 ((parsePrompts pt).take bs)).length 0
      (mkInitialImages chars fid 0 ((parsePrompts pt).take bs))
      (List.replicate ((parsePrompts pt).take bs).length none) hch
    refine ⟨?_, ?_, ?_⟩
    · intro j hj
      have := hstruct.1 j (by simpa using hj)
      simpa using this
    · intro hlen
      have := hstruct.2.1 (by simpa using hlen)
      simpa using this
    · intro j hj
      have hpair := hstruct.2.2 j (by simpa using hj)
      simp only at hpair ⊢
      rw [hpair]
      set lg := (genLoop gen stop 0 (mkInitialImages chars fid 0 ((parsePrompts pt).take bs)).length
          (mkInitialImages chars fid 0 ((parsePrompts pt).take bs))
          (List.replicate ((parsePrompts pt).take bs).length none)).2 with hlg
      have hj2 : j + 1 < lg.length := by simpa using hj
      have hmem : lg.getD j dfltRec ∈ lg := getD_mem lg j dfltRec (by omega)
      have hshape := genLoop_log_shape gen stop
        (mkInitialImages chars fid 0 ((parsePrompts pt).take bs)).length 0
        (mkInitialImages chars fid 0 ((parsePrompts pt).take bs))
        (List.replicate ((parsePrompts pt).take bs).length none) (lg.getD j dfltRec) hmem
      rcases hout : (lg.getD j dfltRec).outcome with _ | b
      · simp [chainOut]
      · have hsp := attemptLoop_spec (gen (lg.getD j dfltRec).scene)
        have hob : (attemptLoop (gen (lg.getD j dfltRec).scene) 1 3).2.2 = some b := by
          rw [← hshape.2.2, hout]
        have hg := (hsp.2.2 b hob).2.1
        have hb : b ≠ [] := hpay _ _ b hg
        simp [chainOut, hb]

/-- Witness for C1: in a two-scene run with an always-succeeding adapter,
scene 2's call carries scene 1's data URL. -/
theorem c1_chain_continuity_witness :
    ((handleGenerate [] (sampleText 2) 10 [] (fun n => n) genAAA stopNever).log.getD 1
        dfltRec).refImage =
      match ((handleGenerate [] (sampleText 2) 10 [] (fun n => n) genAAA stopNever).log.getD 0
          dfltRec).outcome with
      | some b => some (dataUrlPre ++ b)
      | none => none :=
  (c1_chain_continuity [] (sampleText 2) 10 [] (fun n => n) genAAA stopNever
    (fun _ _ b h => by
      have hb : (some ("AAA".data) : Option Str) = some b := h
      cases hb
      decide)).2.2 0 (by decide)

/-- C3: in a full generation run, once the cancellation flag is first
observed set at boundary check `k` (check `2*i` precedes scene `i`'s
attempts, check `2*i+1` follows them), the scene at the cancellation
point (`k / 2`) and all later scenes are marked `cancelled` (never
`failed`) with their loading flag cleared — in particular a payload
produced by the in-flight attempt sequence of scene `k / 2` when `k` is
odd is discarded rather than applied; results of earlier scenes are
exactly what the never-cancelled run produces for them; and no adapter
interaction happens for any scene at or beyond the cancellation point
(every logged record's scene `s` satisfies `2*s < k`). -/
theorem c3_cancellation_boundary (prior : List GeneratedImage) (pt : Str) (bs : Nat)
    (chars : List Character) (fid : Nat → Nat) (gen : Nat → Nat → Option Str)
    (stop : Nat → Bool) (k : Nat)
    (hset : stop k = true) (hleast : ∀ r, r < k → stop r = false)
    (hk : k < 2 * ((parsePrompts pt).take bs).length) :
    (∀ idx, k / 2 ≤ idx → idx < ((parsePrompts pt).take bs).length →
      ((handleGenerate prior pt bs chars fid gen stop).images.getD idx dfltImg).src =
        cancelledLit ∧
      ((handleGenerate prior pt bs chars fid gen stop).images.getD idx dfltImg).isLoading =
        false) ∧
    (∀ idx, idx < k / 2 →
      (handleGenerate prior pt bs chars fid gen stop).images.getD idx dfltImg =
      (handleGenerate prior pt bs chars fid gen stopNever).images.getD idx dfltImg) ∧
    (∀ e, e ∈ (handleGenerate prior pt bs chars fid gen stop).log → 2 * e.scene < k) := by
  have hsc : ¬ ((parsePrompts pt).take bs).length = 0 := by omega
  rw [handleGenerate_eq_pos prior pt bs chars fid gen stop hsc,
      handleGenerate_eq_pos prior pt bs chars fid gen stopNever hsc]
  have hlen : (mkInitialImages chars fid 0 ((parsePrompts pt).take bs)).length =
      ((parsePrompts pt).take bs).length := mkInitialImages_length chars fid _ 0
  refine ⟨?_, ?_, ?_⟩
  · intro idx h1 h2
    have := genLoop_cancel_mark gen stop k hset hleast
      (mkInitialImages chars fid 0 ((parsePrompts pt).take bs)).length 0
      (mkInitialImages chars fid 0 ((parsePrompts pt).take bs))
      (List.replicate ((parsePrompts pt).take bs).length none)
      (by omega) (by omega) idx h1 (by omega)
    simpa using this
  · intro idx h1
    have := genLoop_cancel_agree gen stop k hset hleast
      (mkInitialImages chars fid 0 ((parsePrompts pt).take bs)).length 0
      (mkInitialImages chars fid 0 ((parsePrompts pt).take bs))
      (List.replicate ((parsePrompts pt).take bs).length none)
      (by omega) idx h1
    simpa using this
  · intro e he
    have he2 : e ∈ (genLoop gen stop 0
        (mkInitialImages chars fid 0 ((parsePrompts pt).take bs)).length
        (mkInitialImages chars fid 0 ((parsePrompts pt).take bs))
        (List.replicate ((parsePrompts pt).take bs).length none)).2 := by simpa using he
    exact genLoop_log_stop gen stop k hset hleast
      (mkInitialImages chars fid 0 ((parsePrompts pt).take bs)).length 0
      (mkInitialImages chars fid 0 ((parsePrompts pt).take bs))
      (List.replicate ((parsePrompts pt).take bs).length none)
      (by omega) e he2

/-- Witness for C3: cancelling between scene 1's attempt sequence and its
write (first true read at check 1) marks scene 2 `cancelled`. -/
theorem c3_cancellation_boundary_witness :
    ((handleGenerate [] (sampleText 2) 10 [] (fun n => n) genAAA stopAt1).images.getD 1
        dfltImg).src = cancelledLit :=
  ((c3_cancellation_boundary [] (sampleText 2) 10 [] (fun n => n) genAAA stopAt1 1
    (by decide) (by decide) (by decide)).1 1 (by decide) (by decide)).1

/-- C8: `parsePrompts` keeps exactly the blocks whose extraction yields a
scene number and a non-empty prompt capture — a block is dropped (by
returning nothing, never an error) precisely when the scene-number match
or a non-empty prompt capture is missing; every scene in the output has
non-empty prompt text; and every split block whose extraction succeeds
appears in the output (in block order, by `filterMap`). -/
theorem c8_parser_drop_policy (text : Str) :
    parsePrompts text = (splitScenes text).filterMap extractScene ∧
    (∀ b, (extractScene b).isSome ↔
      ((sceneNumberOf b).isSome ∧ ∃ cap, promptCaptureOf b = some cap ∧ cap ≠ [])) ∧
    (∀ s, s ∈ parsePrompts text → s.prompt ≠ []) ∧
    (∀ b, b ∈ splitScenes text → ∀ s, extractScene b = some s → s ∈ parsePrompts text) := by
  refine ⟨rfl, ?_, ?_, ?_⟩
  · intro b
    constructor
    · intro h
      unfold extractScene at h
      rcases hn : sceneNumberOf b with _ | n <;> rw [hn] at h
      · simp at h
      · rcases hc : promptCaptureOf b with _ | cap <;> rw [hc] at h
        · simp at h
        · by_cases hcap : cap = []
          · simp [hcap] at h
          · exact ⟨by simp, cap, rfl, hcap⟩
    · rintro ⟨hn, cap, hc, hcap⟩
      unfold extractScene
      rcases hn2 : sceneNumberOf b with _ | n
      · rw [hn2] at hn
        simp at hn
      · rw [hc]
        simp [hcap]
  · intro s hs
    simp only [parsePrompts] at hs
    rcases List.mem_filterMap.mp hs with ⟨b, _, hex⟩
    exact extractScene_prompt_ne_nil b s hex
  · intro b hb s hex
    simp only [parsePrompts]
    exact List.mem_filterMap.mpr ⟨b, hb, hex⟩

/-- Witness for C8: the first scene parsed from a concrete two-block
script has non-empty prompt text. -/
theorem c8_parser_drop_policy_witness :
    ((parsePrompts (sampleText 2)).getD 0 dfltScene).prompt ≠ [] :=
  (c8_parser_drop_policy (sampleText 2)).2.2.1
    ((parsePrompts (sampleText 2)).getD 0 dfltScene) (by decide)

theorem handleRegenerate_eq_none (images : List GeneratedImage) (pt : Str) (iid : Nat)
    (ov : Option Str) (gen : Nat → Option Str)
    (hfind : images.find? (fun img => img.id == iid) = none) :
    handleRegenerate images pt iid ov gen = (images, none) := by
  simp [handleRegenerate, hfind]

theorem handleRegenerate_eq_fail (images : List GeneratedImage) (pt : Str) (iid : Nat)
    (ov : Option Str) (gen : Nat → Option Str) (imgR : GeneratedImage)
    (hfind : images.find? (fun img => img.id == iid) = some imgR)
    (hres : (attemptLoop gen 1 3).2.2 = none) :
    handleRegenerate images pt iid ov gen =
      ((images.map (fun img =>
          if img.id == iid then { img with isLoading := true } else img)).map
        (fun img => if img.id == iid then { img with src := errLit, isLoading := false }
          else img),
       some { scene := 0, attempts := (attemptLoop gen 1 3).1,
              waits := (attemptLoop gen 1 3).2.1,
              refImage := regenReference images pt imgR, outcome := none }) := by
  simp [handleRegenerate, hfind, hres]

theorem handleRegenerate_eq_succ (images : List GeneratedImage) (pt : Str) (iid : Nat)
    (ov : Option Str) (gen : Nat → Option Str) (imgR : GeneratedImage) (b : Str)
    (hfind : images.find? (fun img => img.id == iid) = some imgR)
    (hres : (attemptLoop gen 1 3).2.2 = some b) :
    handleRegenerate images pt iid ov gen =
      ((images.map (fun img =>
          if img.id == iid then { img with isLoading := true } else img)).map
        (fun img => if img.id == iid then
          { img with src := dataUrlPre ++ b, isLoading := false, prompt := ov.getD imgR.prompt,
                     sceneScript :=
                       match ov with
                       | some o => replacePromptField imgR.sceneScript o
                       | none => imgR.sceneScript }
          else img),
       some { scene := 0, attempts := (attemptLoop gen 1 3).1,
              waits := (attemptLoop gen 1 3).2.1,
              refImage := regenReference images pt imgR, outcome := some b }) := by
  simp [handleRegenerate, hfind, hres]

/-- C5: in each of the three generation procedures, a scene's generation
makes at most 3 adapter invocations; a failure outcome means exactly 3
invocations were made with exactly 2 five-second waits between them; a
success outcome on attempt `n` means `n-1` waits were taken, the `n`-th
invocation produced the payload, and every earlier invocation failed
(success stops further attempts).  Moreover the result written to the
store is `succeeded` with the payload's data URL exactly when the outcome
is a success, and `failed` (`error`) exactly when attempts were
exhausted: stated for the (uncancelled) full run by `srcMark`, and for a
single-scene regenerate by the written `src`. -/
theorem c5_retry_budget
    (prior : List GeneratedImage) (pt : Str) (bs : Nat) (chars : List Character)
    (fid : Nat → Nat) (gen : Nat → Nat → Option Str) (stop : Nat → Bool)
    (ig : Bool) (images : List GeneratedImage) (gen2 : Nat → Nat → Option Str)
    (stop2 : Nat → Bool)
    (images3 : List GeneratedImage) (pt3 : Str) (iid : Nat) (ov : Option Str)
    (gen3 : Nat → Option Str) :
    (∀ e, e ∈ (handleGenerate prior pt bs chars fid gen stop).log →
      e.attempts ≤ 3 ∧
      (e.outcome = none → e.attempts = 3 ∧ e.waits = 2) ∧
      (∀ b, e.outcome = some b → e.waits + 1 = e.attempts ∧
        gen e.scene e.attempts = some b ∧
        ∀ a, 1 ≤ a → a < e.attempts → gen e.scene a = none)) ∧
    (∀ e, e ∈ (handleRegenerateAll ig images gen2 stop2).2 →
      e.attempts ≤ 3 ∧
      (e.outcome = none → e.attempts = 3 ∧ e.waits = 2) ∧
      (∀ b, e.outcome = some b → e.waits + 1 = e.attempts ∧
        gen2 e.scene e.attempts = some b ∧
        ∀ a, 1 ≤ a → a < e.attempts → gen2 e.scene a = none)) ∧
    (∀ e, (handleRegenerate images3 pt3 iid ov gen3).2 = some e →
      e.attempts ≤ 3 ∧
      (e.outcome = none → e.attempts = 3 ∧ e.waits = 2) ∧
      (∀ b, e.outcome = some b → e.waits + 1 = e.attempts ∧
        gen3 e.attempts = some b ∧
        ∀ a, 1 ≤ a → a < e.attempts → gen3 a = none)) ∧
    (∀ j, j < (handleGenerate prior pt bs chars fid gen stopNever).log.length →
      ((handleGenerate prior pt bs chars fid gen stopNever).images.getD j dfltImg).src =
        srcMark (((handleGenerate prior pt bs chars fid gen stopNever).log.getD j
          dfltRec).outcome)) ∧
    (∀ e, (handleRegenerate images3 pt3 iid ov gen3).2 = some e →
      ∀ k, k < images3.length → (images3.getD k dfltImg).id = iid →
        ((e.outcome = none →
          ((handleRegenerate images3 pt3 iid ov gen3).1.getD k dfltImg).src = errLit) ∧
        (∀ b, e.outcome = some b →
          ((handleRegenerate images3 pt3 iid ov gen3).1.getD k dfltImg).src =
            dataUrlPre ++ b))) := by
  refine ⟨?_, ?_, ?_, ?_, ?_⟩
  · intro e he
    by_cases hsc : ((parsePrompts pt).take bs).length = 0
    · rw [handleGenerate_eq_zero prior pt bs chars fid gen stop hsc] at he
      simp at he
    · rw [handleGenerate_eq_pos prior pt bs chars fid gen stop hsc] at he
      have he2 : e ∈ (genLoop gen stop 0
          (mkInitialImages chars fid 0 ((parsePrompts pt).take bs)).length
          (mkInitialImages chars fid 0 ((parsePrompts pt).take bs))
          (List.replicate ((parsePrompts pt).take bs).length none)).2 := by simpa using he
      have hsh := genLoop_log_shape gen stop _ 0 _ _ e he2
      have hsp := attemptLoop_spec (gen e.scene)
      refine ⟨by rw [hsh.1]; exact hsp.1, ?_, ?_⟩
      · intro ho
        rw [hsh.2.2] at ho
        exact ⟨hsh.1.trans (hsp.2.1 ho).1, hsh.2.1.trans (hsp.2.1 ho).2⟩
      · intro b ho
        rw [hsh.2.2] at ho
        have h3 := hsp.2.2 b ho
        rw [hsh.1, hsh.2.1]
        exact h3
  · intro e he
    by_cases hguard : (ig || decide (images.length = 0)) = true
    · simp only [handleRegenerateAll] at he
      rw [if_pos (by simpa using hguard)] at he
      simp at he
    · simp only [handleRegenerateAll] at he
      rw [if_neg (by simpa using hguard)] at he
      have hsh := regenAllLoop_log_shape gen2 stop2 images.length 0
        (images.map (fun img => { img with isLoading := true }))
        (images.map (fun img =>
          if "data:image".data.isPrefixOf img.src then some img.src else none)) e he
      have hsp := attemptLoop_spec (gen2 e.scene)
      refine ⟨by rw [hsh.1]; exact hsp.1, ?_, ?_⟩
      · intro ho
        rw [hsh.2.2] at ho
        exact ⟨hsh.1.trans (hsp.2.1 ho).1, hsh.2.1.trans (hsp.2.1 ho).2⟩
      · intro b ho
        rw [hsh.2.2] at ho
        have h3 := hsp.2.2 b ho
        rw [hsh.1, hsh.2.1]
        exact h3
  · intro e he
    rcases hfind : images3.find? (fun img => img.id == iid) with _ | imgR
    · rw [handleRegenerate_eq_none images3 pt3 iid ov gen3 hfind] at he
      simp at he
    · have hsp := attemptLoop_spec gen3
      rcases hres : (attemptLoop gen3 1 3).2.2 with _ | b
      · rw [handleRegenerate_eq_fail images3 pt3 iid ov gen3 imgR hfind hres] at he
        simp only [Option.some_inj] at he
        rw [← he]
        refine ⟨hsp.1, fun _ => hsp.2.1 hres, ?_⟩
        intro b hb
        cases hb
      · rw [handleRegenerate_eq_succ images3 pt3 iid ov gen3 imgR b hfind hres] at he
        simp only [Option.some_inj] at he
        rw [← he]
        refine ⟨hsp.1, ?_, ?_⟩
        · intro ho
          simp at ho
        · intro b2 hb2
          have hbb : b = b2 := by simpa using hb2
          subst hbb
          exact hsp.2.2 b hres
  · intro j hj
    by_cases hsc : ((parsePrompts pt).take bs).length = 0
    · rw [handleGenerate_eq_zero prior pt bs chars fid gen stopNever hsc] at hj
      simp at hj
    · rw [handleGenerate_eq_pos prior pt bs chars fid gen stopNever hsc] at hj ⊢
      have hfm := genLoop_free_mark gen
        (mkInitialImages chars fid 0 ((parsePrompts pt).take bs)).length 0
        (mkInitialImages chars fid 0 ((parsePrompts pt).take bs))
        (List.replicate ((parsePrompts pt).take bs).length none) (by omega)
      have hj2 : j < (mkInitialImages chars fid 0 ((parsePrompts pt).take bs)).length := by
        have := hfm.1
        simp only at hj
        omega
      have := (hfm.2 j hj2).1
      simpa using this
  · intro e he k hk hid
    rcases hfind : images3.find? (fun img => img.id == iid) with _ | imgR
    · rw [handleRegenerate_eq_none images3 pt3 iid ov gen3 hfind] at he
      simp at he
    · rcases hres : (attemptLoop gen3 1 3).2.2 with _ | b
      · rw [handleRegenerate_eq_fail images3 pt3 iid ov gen3 imgR hfind hres] at he ⊢
        simp only [Option.some_inj] at he
        refine ⟨?_, ?_⟩
        · intro _
          have hk2 : k < (images3.map (fun img =>
              if img.id == iid then { img with isLoading := true } else img)).length := by
            simpa using hk
          rw [getD_map_of_lt _ _ k dfltImg dfltImg hk2,
              getD_map_of_lt _ _ k dfltImg dfltImg (by simpa using hk)]
          have hid2 : ((images3[k]?).getD dfltImg).id = iid := by
            rw [← List.getD_eq_getElem?_getD]
            exact hid
          simp [hid2]
        · intro b hb
          rw [← he] at hb
          cases hb
      · rw [handleRegenerate_eq_succ images3 pt3 iid ov gen3 imgR b hfind hres] at he ⊢
        simp only [Option.some_inj] at he
        refine ⟨?_, ?_⟩
        · intro hb
          rw [← he] at hb
          cases hb
        · intro b2 hb2
          rw [← he] at hb2
          have hbb : b = b2 := by simpa using hb2
          subst hbb
          have hk2 : k < (images3.map (fun img =>
              if img.id == iid then { img with isLoading := true } else img)).length := by
            simpa using hk
          rw [getD_map_of_lt _ _ k dfltImg dfltImg hk2,
              getD_map_of_lt _ _ k dfltImg dfltImg (by simpa using hk)]
          have hid2 : ((images3[k]?).getD dfltImg).id = iid := by
            rw [← List.getD_eq_getElem?_getD]
            exact hid
          simp [hid2]

/-- Witness for C5: a single-scene regenerate whose adapter always fails
makes exactly 3 invocations with exactly 2 waits. -/
theorem c5_retry_budget_witness :
    ((handleRegenerate [imgX] (sampleText 1) 1 none (fun _ => none)).2.getD dfltRec).attempts = 3 ∧
    ((handleRegenerate [imgX] (sampleText 1) 1 none (fun _ => none)).2.getD dfltRec).waits = 2 :=
  ((c5_retry_budget [] [] 0 [] (fun n => n) genAAA stopNever false [] genAAA stopNever
      [imgX] (sampleText 1) 1 none (fun _ => none)).2.2.1
    ((handleRegenerate [imgX] (sampleText 1) 1 none (fun _ => none)).2.getD dfltRec)
    (by decide)).2.1 (by decide)

/-- C2 (code bug): in a regenerate-all run over two previously succeeded
results where scene 1 exhausts its three attempts, scene 2's adapter
call receives the literal string `error` as its continuity reference — a
truthy value that flows into `generateImage`'s `previousImageBase64`
parameter — instead of no reference, contradicting the code's own
comment (`Mark as error so the next iteration's reference is undefined`)
and the spec's chain-breaking discipline. -/
theorem c2_regen_all_error_reference :
    ((handleRegenerateAll false [imgX, imgY] genFail0 stopNever).2.getD 1 dfltRec).refImage
      = some errLit ∧
    ((handleRegenerateAll false [imgX, imgY] genFail0 stopNever).2.getD 0 dfltRec).outcome
      = none ∧
    ((handleRegenerateAll false [imgX, imgY] genFail0 stopNever).2.getD 0 dfltRec).attempts
      = 3 := by
  decide

/-- C4 counterexample: cancelling a regenerate-all run at the first
boundary check leaves the result's `src` unchanged (here its old data
URL) — the result is NOT marked with the `cancelled` status the claim
demands. -/
theorem c4_counterexample :
    ((handleRegenerateAll false [imgX] genAAA stopAlways).1.getD 0 dfltImg).src ≠ cancelledLit ∧
    ((handleRegenerateAll false [imgX] genAAA stopAlways).1.getD 0 dfltImg).isLoading = false ∧
    ((handleRegenerateAll false [imgX] genAAA stopAlways).1.getD 0 dfltImg).src = imgX.src := by
  decide

/-- C4 (amended): in a regenerate-all run, when cancellation is first
observed at boundary check `k`, every result from the cancellation point
(`k / 2`) onward keeps its prior content with only the loading flag
cleared: it is neither marked `cancelled` nor `failed`. -/
theorem c4_regen_all_cancel_keeps_content (images : List GeneratedImage)
    (gen : Nat → Nat → Option Str) (stop : Nat → Bool) (k : Nat)
    (hset : stop k = true) (hleast : ∀ r, r < k → stop r = false)
    (hk : k < 2 * images.length) :
    ∀ idx, k / 2 ≤ idx → idx < images.length →
      (handleRegenerateAll false images gen stop).1.getD idx dfltImg =
        { images.getD idx dfltImg with isLoading := false } := by
  intro idx h1 h2
  have hne : ¬ (false || decide (images.length = 0)) = true := by
    intro hcond
    simp only [Bool.false_or, decide_eq_true_eq] at hcond
    omega
  simp only [handleRegenerateAll]
  rw [if_neg hne]
  have hkeep := regenAllLoop_cancel_keep gen stop k hset hleast images.length 0
    (images.map (fun img => { img with isLoading := true }))
    (images.map (fun img =>
      if "data:image".data.isPrefixOf img.src then some img.src else none))
    (by omega) (by omega) idx h1 (by simpa using h2)
  rw [hkeep, getD_map_of_lt _ _ idx dfltImg dfltImg h2]

/-- Witness for C4's amended statement: cancelling between scene 1's
attempts and its write keeps scene 1's stored content. -/
theorem c4_regen_all_cancel_keeps_content_witness :
    (handleRegenerateAll false [imgX, imgY] genAAA stopAt1).1.getD 0 dfltImg =
      { ([imgX, imgY].getD 0 dfltImg) with isLoading := false } :=
  c4_regen_all_cancel_keeps_content [imgX, imgY] genAAA stopAt1 1 (by decide) (by decide)
    (by decide) 0 (by decide) (by decide)

/-- C6 (amended): when parsing (after the batch-size truncation) yields
zero scenes, the run reports the input-validation message, makes no
adapter calls and creates no results — but the Result Store was already
cleared at run start (`setGeneratedImages([])` precedes the check), so
the run ends with an empty store rather than the previous contents. -/
theorem c6_zero_scene_abort (prior : List GeneratedImage) (pt : Str) (bs : Nat)
    (chars : List Character) (fid : Nat → Nat) (gen : Nat → Nat → Option Str)
    (stop : Nat → Bool) (hsc : ((parsePrompts pt).take bs).length = 0) :
    (handleGenerate prior pt bs chars fid gen stop).error = some noPromptsMsg ∧
    (handleGenerate prior pt bs chars fid gen stop).log = [] ∧
    (handleGenerate prior pt bs chars fid gen stop).images = [] := by
  rw [handleGenerate_eq_zero prior pt bs chars fid gen stop hsc]
  exact ⟨rfl, rfl, rfl⟩

/-- C6 counterexample: an aborted zero-scene run does NOT leave the
previous store contents unchanged — a store holding one result before the
run ends empty. -/
theorem c6_counterexample :
    (handleGenerate [imgX] [] 10 [] (fun n => n) genAAA stopNever).images = [] ∧
    (handleGenerate [imgX] [] 10 [] (fun n => n) genAAA stopNever).images ≠ [imgX] := by
  decide

/-- Witness for C6's amended statement at the empty script. -/
theorem c6_zero_scene_abort_witness :
    (handleGenerate [imgX] [] 10 [] (fun n => n) genAAA stopNever).error = some noPromptsMsg :=
  (c6_zero_scene_abort [imgX] [] 10 [] (fun n => n) genAAA stopNever (by decide)).1

/-- C7 (amended): a full run creates exactly one pending result per scene
among the FIRST `batchSize` parsed scenes (the parse result is truncated
by `slice(0, batchSize)` before results are created), in parse order,
published together as the new store content; the `j`-th initial entry is
pending (`src` empty, loading set) and carries the `j`-th retained
scene's prompt, header label and script text. -/
theorem c7_initial_results (prior : List GeneratedImage) (pt : Str) (bs : Nat)
    (chars : List Character) (fid : Nat → Nat) (gen : Nat → Nat → Option Str)
    (stop : Nat → Bool) (hsc : ¬ ((parsePrompts pt).take bs).length = 0) :
    (handleGenerate prior pt bs chars fid gen stop).initial.length =
      min bs (parsePrompts pt).length ∧
    ∀ j, j < ((parsePrompts pt).take bs).length →
      ((handleGenerate prior pt bs chars fid gen stop).initial.getD j dfltImg).prompt =
        (((parsePrompts pt).take bs).getD j dfltScene).prompt ∧
      ((handleGenerate prior pt bs chars fid gen stop).initial.getD j dfltImg).src = [] ∧
      ((handleGenerate prior pt bs chars fid gen stop).initial.getD j dfltImg).isLoading =
        true ∧
      ((handleGenerate prior pt bs chars fid gen stop).initial.getD j dfltImg).sceneName =
        hdrLit ++ (Nat.repr (((parsePrompts pt).take bs).getD j dfltScene).sceneNumber).data ∧
      ((handleGenerate prior pt bs chars fid gen stop).initial.getD j dfltImg).sceneScript =
        (((parsePrompts pt).take bs).getD j dfltScene).fullText := by
  have hin : (handleGenerate prior pt bs chars fid gen stop).initial =
      mkInitialImages chars fid 0 ((parsePrompts pt).take bs) := by
    rw [handleGenerate_eq_pos prior pt bs chars fid gen stop hsc]
  constructor
  · rw [hin, mkInitialImages_length, List.length_take]
  · intro j hj
    rw [hin, mkInitialImages_getD chars fid _ 0 j hj]
    exact ⟨rfl, rfl, rfl, rfl, rfl⟩

set_option maxRecDepth 100000 in
/-- C7 counterexample: an 11-scene script with the default batch size of
10 creates only 10 results — NOT one per parsed scene. -/
theorem c7_counterexample :
    (parsePrompts (sampleText 11)).length = 11 ∧
    (handleGenerate [] (sampleText 11) 10 [] (fun n => n) genAAA stopAlways).initial.length
      = 10 ∧
    (handleGenerate [] (sampleText 11) 10 [] (fun n => n) genAAA stopAlways).initial.length
      ≠ (parsePrompts (sampleText 11)).length := by
  decide

/-- Witness for C7's amended statement on a two-scene script. -/
theorem c7_initial_results_witness :
    (handleGenerate [] (sampleText 2) 10 [] (fun n => n) genAAA stopNever).initial.length =
      min 10 (parsePrompts (sampleText 2)).length :=
  (c7_initial_results [] (sampleText 2) 10 [] (fun n => n) genAAA stopNever (by decide)).1

/-- C9 counterexample: regenerating scene 2 while scene 1's stored result
is a cancelled placeholder supplies the literal string `cancelled` as the
continuity reference — a result that is not successful is supplied,
refuting the claim. -/
theorem c9_counterexample :
    ((handleRegenerate [imgCancelled1, imgY] (sampleText 2) 2 none genOne).2.getD
        dfltRec).refImage = some cancelledLit := by
  decide

/-- C9 (amended): single-scene regenerate derives its continuity
reference by re-parsing the current script text, locating the target
scene by its number in the parse and taking the immediately preceding
parsed scene, then selecting the FIRST stored result (in store order)
whose label starts with that scene's header and whose `src` is non-empty
and not the `error` marker.  Hence a pending (`src` empty) or failed
(`error`) result is never supplied and any supplied reference is the
`src` of some stored result — but a `cancelled` placeholder passes the
filter (see the counterexample). -/
theorem c9_regen_reference (images : List GeneratedImage) (pt : Str) (iid : Nat)
    (ov : Option Str) (gen : Nat → Option Str) (e : CallRecord)
    (he : (handleRegenerate images pt iid ov gen).2 = some e) :
    ∀ s, e.refImage = some s →
      s ≠ [] ∧ s ≠ errLit ∧ ∃ img, img ∈ images ∧ img.src = s := by
  have href : e.refImage = regenReference images pt
      ((images.find? (fun img => img.id == iid)).getD dfltImg) := by
    rcases hfind : images.find? (fun img => img.id == iid) with _ | imgR
    · rw [handleRegenerate_eq_none images pt iid ov gen hfind] at he
      simp at he
    · rcases hres : (attemptLoop gen 1 3).2.2 with _ | b
      · rw [handleRegenerate_eq_fail images pt iid ov gen imgR hfind hres] at he
        simp only [Option.some_inj] at he
        rw [← he, hfind]
        rfl
      · rw [handleRegenerate_eq_succ images pt iid ov gen imgR b hfind hres] at he
        simp only [Option.some_inj] at he
        rw [← he, hfind]
        rfl
  intro s hs
  rw [href] at hs
  unfold regenReference at hs
  split at hs
  · cases hs
  · split at hs
    · cases hs
    · split at hs
      · cases hs
      · split at hs
        · rename_i prevImg h3
          have hsome : s = prevImg.src := by simpa using hs.symm
          subst hsome
          have hp := List.find?_some h3
          simp only [Bool.and_eq_true, bne_iff_ne] at hp
          exact ⟨hp.1.2, hp.2, prevImg, List.mem_of_find?_eq_some h3, rfl⟩
        · cases hs

/-- Witness for C9's amended statement: a supplied reference is non-empty,
not the error marker, and is the `src` of a stored result. -/
theorem c9_regen_reference_witness :
    imgX.src ≠ [] ∧ imgX.src ≠ errLit ∧
      ∃ img, img ∈ [imgX, imgY] ∧ img.src = imgX.src :=
  c9_regen_reference [imgX, imgY] (sampleText 2) 2 none genOne
    ((handleRegenerate [imgX, imgY] (sampleText 2) 2 none genOne).2.getD dfltRec)
    (by decide) imgX.src (by decide)

/-- C10 counterexample: a successful regeneration with a prompt override
rewrites the stored scene script from the prompt label to the END of the
script: the `Nhân vật:` and `Thời lượng ảnh:` fields that followed the
prompt field are deleted, not preserved as the claim demands. -/
theorem c10_counterexample :
    ((handleRegenerate [imgScript] [] 5 (some "NEW".data) genOne).1.getD 0
        dfltImg).sceneScript = ("Cảnh 2: x\nPrompt (Câu lệnh tiếng Anh): NEW").data ∧
    ((handleRegenerate [imgScript] [] 5 (some "NEW".data) genOne).1.getD 0
        dfltImg).sceneScript ≠
      ("Cảnh 2: x\nPrompt (Câu lệnh tiếng Anh): NEW\nNhân vật: Anna\nThời lượng ảnh: 5s").data := by
  decide

/-- C10 (amended): on a successful single-scene regeneration with a
prompt override (containing no `$` character, which `replace` would
otherwise expand), the result's `promptText` becomes the override and
`sceneScriptText` is rewritten from the first occurrence of the prompt
label to the END of the script: the portion before the label is
preserved unchanged, and everything from the label onward — including
every labelled field that followed the prompt field — is replaced by the
label followed by the override. -/
theorem c10_prompt_override (images : List GeneratedImage) (pt : Str) (iid : Nat)
    (ov : Str) (gen : Nat → Option Str) (imgR : GeneratedImage) (b : Str)
    (pre suf : Str)
    (hfind : images.find? (fun img => img.id == iid) = some imgR)
    (hres : (attemptLoop gen 1 3).2.2 = some b)
    (hsplit : findLabelSplit imgR.sceneScript = some (pre, suf))
    (hdollar : ∀ c ∈ ov, c ≠ '$')
    (k : Nat) (hk : k < images.length) (hid : (images.getD k dfltImg).id = iid) :
    ((handleRegenerate images pt iid (some ov) gen).1.getD k dfltImg).prompt = ov ∧
    ((handleRegenerate images pt iid (some ov) gen).1.getD k dfltImg).sceneScript =
      pre ++ promptLabel ++ ' ' :: ov := by
  rw [handleRegenerate_eq_succ images pt iid (some ov) gen imgR b hfind hres]
  have hk2 : k < (images.map (fun img =>
      if img.id == iid then { img with isLoading := true } else img)).length := by
    simpa using hk
  rw [getD_map_of_lt _ _ k dfltImg dfltImg hk2,
      getD_map_of_lt _ _ k dfltImg dfltImg (by simpa using hk)]
  have hid2 : ((images[k]?).getD dfltImg).id = iid := by
    rw [← List.getD_eq_getElem?_getD]
    exact hid
  have hrepl : replacePromptField imgR.sceneScript ov = pre ++ promptLabel ++ ' ' :: ov := by
    unfold replacePromptField
    rw [hsplit]
    show pre ++ expandRepl suf pre [] (promptLabel ++ ' ' :: ov) =
      pre ++ promptLabel ++ ' ' :: ov
    have hnd : ∀ c ∈ promptLabel ++ ' ' :: ov, c ≠ '$' := by
      intro c hc
      rcases List.mem_append.mp hc with h | h
      · have : ∀ d ∈ promptLabel, d ≠ '$' := by decide
        exact this c h
      · rcases List.mem_cons.mp h with h2 | h2
        · subst h2
          decide
        · exact hdollar c h2
    rw [expandRepl_no_dollar suf pre [] (promptLabel ++ ' ' :: ov) hnd,
        List.append_assoc]
  simp [hid2, hrepl]

/-- Witness for C10's amended statement at a concrete script whose prompt
field is followed by two other labelled fields. -/
theorem c10_prompt_override_witness :
    ((handleRegenerate [imgScript] [] 5 (some "NEW".data) genOne).1.getD 0
        dfltImg).prompt = "NEW".data ∧
    ((handleRegenerate [imgScript] [] 5 (some "NEW".data) genOne).1.getD 0
        dfltImg).sceneScript = ("Cảnh 2: x\n").data ++ promptLabel ++ ' ' :: "NEW".data :=
  c10_prompt_override [imgScript] [] 5 "NEW".data genOne imgScript "Q".data
    ("Cảnh 2: x\n").data
    ("Prompt (Câu lệnh tiếng Anh): old stuff\nNhân vật: Anna\nThời lượng ảnh: 5s").data
    (by decide) (by decide) (by decide) (by decide) 0 (by decide) (by decide)
